import Mathlib

/-!
Shallow embedding of the seo-checker-tool page-type classification and
structured-data recommendation pipeline.

Sources embedded here:
- `src/page-type-analyzer.js` (class `PageTypeAnalyzer`): signature tables,
  `countMatches`, `countPatternMatches`, `calculateSingleTypeScore`,
  `applySpecialElementBonus`, `calculateTypeScores`, `getTopTypes`,
  `analyzePage`.
- `src/unnamed/part_007` (class `StructuredDataRecommender`): the
  recommendation catalog, `findMissingSchemas`, `prioritizeRecommendations`,
  `calculateExpectedBenefits`, `generateRecommendations`.
- `src/unnamed/part_002` (class `SchemaTemplates`): `getPersonTemplate`,
  `fillTemplate`, `cleanSchema`.
- `src/unnamed/part_006` (`checkStructuredData`): the shape of the existing
  JSON-LD inventory handed to the recommender.

Scores are JavaScript numbers; the values that actually arise are small sums
and products of integers and the fixed half-integer weights, all exact in
IEEE doubles, so they are modelled as rationals `Rat`.
-/

/-! ## String scanning primitives

JavaScript `String.prototype.match(new RegExp(kw, 'g'))` on the
metacharacter-free keyword literals of the signature tables counts
left-to-right non-overlapping occurrences of the literal; `includes` is
substring containment; `replace(re, v)` with a global literal regex replaces
the same non-overlapping occurrences.  We model strings as their character
lists. -/

/-- Fuel-driven scanner for `countOccs`; one unit of fuel is spent per
character position, so `l.length` fuel always suffices. -/
def countOccsF : Nat → List Char → List Char → Nat
  | 0, _, _ => 0
  | _ + 1, _, [] => 0
  | fuel + 1, pat, c :: rest =>
    if pat ≠ [] ∧ pat.isPrefixOf (c :: rest) then
      1 + countOccsF fuel pat (rest.drop (pat.length - 1))
    else
      countOccsF fuel pat rest

/-- Left-to-right non-overlapping occurrence count of `pat` in a character
list, the model of `(text.match(new RegExp(pat, 'g')) || []).length` for a
nonempty literal pattern.  (An empty pattern is counted zero times here; no
entry of the signature tables is empty.) -/
def countOccs (pat l : List Char) : Nat := countOccsF l.length pat l

/-- Substring containment, the model of `text.includes(pat)`. -/
def containsL (pat : List Char) : List Char → Bool
  | [] => pat.isEmpty
  | c :: rest => pat.isPrefixOf (c :: rest) || containsL pat rest

/-- Fuel-driven scanner for `replaceAll`, spending one unit of fuel per
character position. -/
def replaceAllF : Nat → List Char → List Char → List Char → List Char
  | 0, _, _, l => l
  | _ + 1, _, _, [] => []
  | fuel + 1, pat, repl, c :: rest =>
    if pat ≠ [] ∧ pat.isPrefixOf (c :: rest) then
      repl ++ replaceAllF fuel pat repl (rest.drop (pat.length - 1))
    else
      c :: replaceAllF fuel pat repl rest

/-- Left-to-right non-overlapping replacement of every occurrence of `pat`
by `repl`, the model of `text.replace(new RegExp(pat, 'g'), repl)` for a
nonempty literal pattern. -/
def replaceAll (pat repl l : List Char) : List Char := replaceAllF l.length pat repl l

/-- The two-character opening placeholder delimiter of the schema templates. -/
def obChars : List Char := "\x7b\x7b".data

/-- The two-character closing placeholder delimiter of the schema templates. -/
def cbChars : List Char := "\x7d\x7d".data

/-- Whether the character list contains a placeholder-shaped token: an
opening delimiter with a closing delimiter somewhere after it (the substring
form matched by the regex open-open dot-star close-close). -/
def hasPH : List Char → Bool
  | [] => false
  | c :: rest =>
    (obChars.isPrefixOf (c :: rest) && containsL cbChars (rest.drop 1)) || hasPH rest

/-- Character-level lowercasing, the model of `text.toLowerCase()`: the
signature tables contain only ASCII letters and Japanese characters, on which
JavaScript lowercasing coincides with per-character ASCII lowercasing. -/
def strLower (s : String) : String := ⟨s.data.map Char.toLower⟩

/-- Occurrence count lifted to `String`. -/
def strOccs (text pat : String) : Nat := countOccs pat.data text.data

/-- Substring containment lifted to `String`. -/
def strContains (text pat : String) : Bool := containsL pat.data text.data

/-- Global replacement lifted to `String`. -/
def strReplaceAll (text pat repl : String) : String := ⟨replaceAll pat.data repl.data text.data⟩

/-- Placeholder-token presence lifted to `String`. -/
def strHasPH (s : String) : Bool := hasPH s.data

/-! ## Page types and signature tables (`src/page-type-analyzer.js`) -/

/-- The ten supported page types, constructors in the declaration order of
the `this.patterns` table of `PageTypeAnalyzer`. -/
inductive PageType where
  | Article
  | Product
  | LocalBusiness
  | Recipe
  | Event
  | FAQ
  | HowTo
  | Review
  | JobPosting
  | Course
  deriving DecidableEq

/-- `Object.keys(this.patterns)`: the page types in table-declaration
order. -/
def pageTypes : List PageType :=
  [.Article, .Product, .LocalBusiness, .Recipe, .Event, .FAQ, .HowTo, .Review, .JobPosting, .Course]

/-- One entry of the `this.patterns` signature table. -/
structure PageSignature where
  keywords : List String
  urlPatterns : List String
  titlePatterns : List String
  contentPatterns : List String

/-- The `this.patterns` table of `PageTypeAnalyzer`, copied verbatim. -/
def patterns : PageType → PageSignature
  | .Article =>
    { keywords := ["記事", "ブログ", "ニュース", "投稿", "コラム", "レポート", "解説"]
      urlPatterns := ["/blog/", "/news/", "/article/", "/post/", "/column/"]
      titlePatterns := ["～について", "～とは", "～を解説", "～のまとめ"]
      contentPatterns := ["公開日", "更新日", "執筆者", "著者", "シェア", "いいね"] }
  | .Product =>
    { keywords := ["商品", "製品", "価格", "購入", "在庫", "レビュー", "評価", "カート", "送料"]
      urlPatterns := ["/product/", "/item/", "/goods/", "/shop/", "/store/"]
      titlePatterns := ["～を購入", "～の価格", "～のレビュー", "価格：", "￥"]
      contentPatterns := ["価格", "在庫", "カートに入れる", "購入する", "送料", "配送", "保証"] }
  | .LocalBusiness =>
    { keywords := ["店舗", "営業時間", "住所", "電話番号", "アクセス", "地図", "駐車場", "予約"]
      urlPatterns := ["/company/", "/about/", "/contact/", "/access/", "/shop/"]
      titlePatterns := ["会社概要", "店舗情報", "アクセス", "営業時間", "～店"]
      contentPatterns := ["営業時間", "定休日", "住所", "電話", "TEL", "地図", "アクセス"] }
  | .Recipe =>
    { keywords := ["レシピ", "料理", "材料", "作り方", "調理", "手順", "分量", "調理時間"]
      urlPatterns := ["/recipe/", "/cooking/", "/food/"]
      titlePatterns := ["～のレシピ", "～の作り方", "簡単", "手作り"]
      contentPatterns := ["材料", "分量", "手順", "調理時間", "人前", "カロリー", "栄養"] }
  | .Event =>
    { keywords := ["イベント", "開催", "日時", "場所", "参加", "チケット", "予約", "会場"]
      urlPatterns := ["/event/", "/seminar/", "/conference/", "/workshop/"]
      titlePatterns := ["開催のお知らせ", "イベント情報", "セミナー", "講座"]
      contentPatterns := ["開催日", "開催時間", "会場", "参加費", "定員", "お申込み"] }
  | .FAQ =>
    { keywords := ["よくある質問", "FAQ", "Q&A", "質問", "回答", "ヘルプ", "サポート"]
      urlPatterns := ["/faq/", "/help/", "/support/", "/qa/"]
      titlePatterns := ["よくある質問", "FAQ", "Q&A", "ヘルプ"]
      contentPatterns := ["Q:", "A:", "質問：", "回答：", "よくある質問"] }
  | .HowTo =>
    { keywords := ["方法", "やり方", "手順", "ステップ", "ガイド", "チュートリアル", "使い方"]
      urlPatterns := ["/howto/", "/guide/", "/tutorial/", "/manual/"]
      titlePatterns := ["～の方法", "～のやり方", "～ガイド", "ステップ", "手順"]
      contentPatterns := ["ステップ", "手順", "方法", "STEP", "まず", "次に", "最後に"] }
  | .Review =>
    { keywords := ["レビュー", "評価", "口コミ", "感想", "体験談", "評判", "星"]
      urlPatterns := ["/review/", "/rating/", "/evaluation/"]
      titlePatterns := ["レビュー", "評価", "口コミ", "体験談", "～を試してみた"]
      contentPatterns := ["評価", "★", "☆", "星", "点数", "おすすめ", "メリット", "デメリット"] }
  | .JobPosting =>
    { keywords := ["求人", "採用", "募集", "仕事", "転職", "就職", "給与", "勤務地"]
      urlPatterns := ["/job/", "/career/", "/recruit/", "/hiring/"]
      titlePatterns := ["求人情報", "採用情報", "募集要項", "正社員", "アルバイト"]
      contentPatterns := ["募集要項", "給与", "勤務地", "勤務時間", "応募資格", "福利厚生"] }
  | .Course =>
    { keywords := ["講座", "コース", "授業", "学習", "教育", "スクール", "研修", "カリキュラム"]
      urlPatterns := ["/course/", "/class/", "/training/", "/education/"]
      titlePatterns := ["講座", "コース", "研修", "スクール", "～を学ぶ"]
      contentPatterns := ["カリキュラム", "学習内容", "期間", "受講料", "講師", "資格"] }

/-- The `this.weights` record of `PageTypeAnalyzer`. -/
structure Weights where
  title : Rat
  meta : Rat
  headings : Rat
  url : Rat
  content : Rat

/-- `weights = { title: 3.0, meta: 2.5, headings: 2.0, url: 2.0, content: 1.0 }`. -/
def weights : Weights :=
  { title := 3, meta := 5 / 2, headings := 2, url := 2, content := 1 }

/-- The seven boolean special-element detector results of
`extractPageData`. -/
structure SpecialElements where
  price : Bool
  review : Bool
  event : Bool
  recipe : Bool
  faq : Bool
  job : Bool
  course : Bool

/-- The record produced by `extractPageData` (the `contentLength` field,
`bodyText.length`, is not read by any scoring code and is omitted). -/
structure PageData where
  title : String
  metaDescription : String
  headings : List String
  url : String
  bodyText : String
  specialElements : SpecialElements

/-- `countMatches(text, keywords)`: 0 for a falsy (empty) text, otherwise the
sum over the keywords of the case-insensitive global-regex occurrence count
of the keyword in the text (a `reduce` in the source). -/
def countMatches (text : String) (keywords : List String) : Nat :=
  if text = "" then 0
  else keywords.foldl (fun count kw => count + strOccs (strLower text) (strLower kw)) 0

/-- `countPatternMatches(text, patterns)`: 0 for a falsy (empty) text,
otherwise the number of patterns contained in the text, 0 or 1 each (a
`reduce` over `includes` in the source). -/
def countPatternMatches (text : String) (pats : List String) : Nat :=
  if text = "" then 0
  else pats.foldl (fun count p => if strContains text p then count + 1 else count) 0

/-- `calculateSingleTypeScore(type, pageData)`: the weighted base score of one
page type, accumulated exactly as in the source (title keywords and title
patterns at `weights.title`, meta keywords at `weights.meta`, keywords in the
space-joined headings at `weights.headings`, URL patterns at `weights.url`,
body keywords and body content patterns at `weights.content`; note that the
content patterns go through `countMatches`, not `countPatternMatches`). -/
def calculateSingleTypeScore (type : PageType) (pageData : PageData) : Rat :=
  let pattern := patterns type
  let headingsText := " ".intercalate pageData.headings
  (countMatches pageData.title pattern.keywords : Rat) * weights.title
    + (countPatternMatches pageData.title pattern.titlePatterns : Rat) * weights.title
    + (countMatches pageData.metaDescription pattern.keywords : Rat) * weights.meta
    + (countMatches headingsText pattern.keywords : Rat) * weights.headings
    + (countPatternMatches pageData.url pattern.urlPatterns : Rat) * weights.url
    + (countMatches pageData.bodyText pattern.keywords : Rat) * weights.content
    + (countMatches pageData.bodyText pattern.contentPatterns : Rat) * weights.content

/-- A score table, the model of the `scores` object of
`calculateTypeScores`: keys in insertion order with their numeric values. -/
abbrev ScoreList := List (PageType × Rat)

/-- One mutation `scores[u] = (scores[u] || 0) + b` of
`applySpecialElementBonus`, acting on the entry of key `u` (every key is
present and every stored score is non-negative, so `|| 0` never changes the
read value). -/
def addScore (scores : ScoreList) (u : PageType) (b : Rat) : ScoreList :=
  scores.map fun p => if p.1 = u then (p.1, p.2 + b) else p

/-- `applySpecialElementBonus(scores, specialElements)`: the seven
sequential conditional bonus mutations of the source, in source order. -/
def applySpecialElementBonus (scores : ScoreList) (se : SpecialElements) : ScoreList :=
  let s1 := if se.price then addScore scores .Product 10 else scores
  let s2 := if se.review then addScore (addScore s1 .Review 8) .Product 5 else s1
  let s3 := if se.event then addScore s2 .Event 12 else s2
  let s4 := if se.recipe then addScore s3 .Recipe 15 else s3
  let s5 := if se.faq then addScore s4 .FAQ 15 else s4
  let s6 := if se.job then addScore s5 .JobPosting 12 else s5
  if se.course then addScore s6 .Course 10 else s6

/-- `calculateTypeScores(pageData)`: base score per type in
table-declaration order, then the special-element bonuses. -/
def calculateTypeScores (pageData : PageData) : ScoreList :=
  applySpecialElementBonus
    (pageTypes.map fun type => (type, calculateSingleTypeScore type pageData))
    pageData.specialElements

/-- Property access `scores[type]` followed by `|| 0` where it occurs
(`analyzePage` reads `typeScores[detectedTypes[0]] || 0`). -/
def scoreOf (scores : ScoreList) (type : PageType) : Rat :=
  ((scores.find? fun p => p.1 = type).map Prod.snd).getD 0

/-- The descending comparison passed to `Array.prototype.sort`:
`(a, b) => b - a` on the score components orders an entry before another
whenever its score is at least the other's.  `Array.prototype.sort` is
stable, and a stable sort for this total preorder is unique, so Mathlib's
stable `List.insertionSort` computes exactly the JavaScript result. -/
def scoreGE (a b : PageType × Rat) : Prop := b.2 ≤ a.2

instance : DecidableRel scoreGE := fun a b => inferInstanceAs (Decidable (b.2 ≤ a.2))

/-- The stable descending sort of `Object.entries(scores).sort(([,a],[,b]) => b - a)`. -/
def sortDesc (scores : ScoreList) : ScoreList := List.insertionSort scoreGE scores

/-- `getTopTypes(scores)`: entries sorted by descending score, mapped to
their keys, keeping the first five. -/
def getTopTypes (scores : ScoreList) : List PageType :=
  ((sortDesc scores).map Prod.fst).take 5

/-- The result record of `analyzePage` (the `analysisDetails` field carries
no classification data and is omitted). -/
structure ClassificationResult where
  primaryType : PageType
  secondaryTypes : List PageType
  confidence : Rat
  allScores : ScoreList

/-- `analyzePage($, url)` after `extractPageData` succeeded: score, rank,
and package the result.  `detectedTypes` is provably non-empty (ten entries
are always scored), so the JavaScript read `detectedTypes[0]` is modelled by
`headD` with an arbitrary default.  The catch-branch of the source (returning
`Article`/`0` when extraction throws) lies outside this total model. -/
def analyzePage (pageData : PageData) : ClassificationResult :=
  let typeScores := calculateTypeScores pageData
  let detectedTypes := getTopTypes typeScores
  { primaryType := detectedTypes.headD .Article
    secondaryTypes := (detectedTypes.drop 1).take 2
    confidence := scoreOf typeScores (detectedTypes.headD .Article)
    allScores := typeScores }

/-- The degenerate parsed document of the default-on-error scenario: no
title, no meta description, no headings, no URL, no body text, and no
special element detected. -/
def emptyPageData : PageData :=
  { title := ""
    metaDescription := ""
    headings := []
    url := ""
    bodyText := ""
    specialElements :=
      { price := false, review := false, event := false, recipe := false
        faq := false, job := false, course := false } }

/-! ## JSON values

`src/unnamed/part_006` parses each `<script type="application/ld+json">`
block with `JSON.parse` and pushes the parsed value; `src/unnamed/part_007`
and `src/unnamed/part_002` then walk such values.  Parsed JSON is modelled as
a tree; object fields are kept in document order (duplicate keys do not
arise in the data handled here). -/

inductive JVal where
  | null : JVal
  | bool : Bool → JVal
  | num : Rat → JVal
  | str : String → JVal
  | arr : List JVal → JVal
  | obj : List (String × JVal) → JVal

/-- Property read `v[key]` (including through optional chaining): a field of
an object if present, `undefined` — here `none` — for a missing field or a
non-object. -/
def objGet (v : JVal) (key : String) : Option JVal :=
  match v with
  | .obj fields => (fields.find? fun f => f.1 = key).map Prod.snd
  | _ => none

/-- JavaScript falsiness on JSON values (`undefined` is represented by
`Option.none` upstream of this test). -/
def isFalsy : JVal → Bool
  | .null => true
  | .bool b => !b
  | .num q => q = 0
  | .str s => s = ""
  | _ => false

/-! ## The structured-data recommender (`src/unnamed/part_007`) -/

/-- One tier triple of the `this.recommendations` catalog. -/
structure RecTiers where
  primary : List String
  secondary : List String
  optional : List String

/-- The `this.recommendations` catalog of `StructuredDataRecommender`,
copied verbatim. -/
def recommendations : PageType → RecTiers
  | .Article =>
    { primary := ["Article", "NewsArticle", "BlogPosting"]
      secondary := ["Organization", "Person", "BreadcrumbList"]
      optional := ["Comment", "Rating", "Review"] }
  | .Product =>
    { primary := ["Product"]
      secondary := ["Organization", "Offer", "Review"]
      optional := ["AggregateRating", "Brand", "BreadcrumbList"] }
  | .LocalBusiness =>
    { primary := ["LocalBusiness"]
      secondary := ["Organization", "PostalAddress", "ContactPoint"]
      optional := ["OpeningHoursSpecification", "GeoCoordinates", "Review"] }
  | .Recipe =>
    { primary := ["Recipe"]
      secondary := ["Person", "Organization", "NutritionInformation"]
      optional := ["AggregateRating", "Review", "Video"] }
  | .Event =>
    { primary := ["Event"]
      secondary := ["Place", "Organization", "Offer"]
      optional := ["Person", "PostalAddress", "VirtualLocation"] }
  | .FAQ =>
    { primary := ["FAQPage"]
      secondary := ["Question", "Answer"]
      optional := ["Organization", "BreadcrumbList"] }
  | .HowTo =>
    { primary := ["HowTo"]
      secondary := ["HowToStep", "HowToSupply", "HowToTool"]
      optional := ["Person", "Organization", "Video"] }
  | .Review =>
    { primary := ["Review"]
      secondary := ["Product", "Organization", "Rating"]
      optional := ["Person", "AggregateRating", "CreativeWork"] }
  | .JobPosting =>
    { primary := ["JobPosting"]
      secondary := ["Organization", "Place"]
      optional := ["PostalAddress", "MonetaryAmount", "EducationalOccupationalCredential"] }
  | .Course =>
    { primary := ["Course", "EducationEvent"]
      secondary := ["Organization", "Person", "Place"]
      optional := ["AggregateRating", "Review", "Offer"] }

/-- `getBaseRecommendations(pageType)`: the catalog entry (for a `PageType`
value the `|| this.recommendations.Article` fallback and the `|| []` field
fallbacks never fire, every entry being present and fully populated). -/
def getBaseRecommendations (pageType : PageType) : RecTiers :=
  recommendations pageType

/-- The existing structured-data inventory assembled by
`checkStructuredData` (`src/unnamed/part_006`): the parsed JSON-LD block
values, plus the `itemtype`/`typeof` attribute strings. -/
structure ExistingSchemas where
  jsonLd : List JVal
  microdata : List String
  rdfa : List String

/-- One step of the `existingSchemas.jsonLd?.map(...)` arrow of
`findMissingSchemas`: `Array.isArray(schema.data?.['@type'])
? schema.data['@type'][0] : schema.data?.['@type']`, with `none` standing
for `undefined`. -/
def extractType (schema : JVal) : Option JVal :=
  match objGet schema "data" with
  | some d =>
    match objGet d "@type" with
    | some (.arr l) => l.head?
    | some v => some v
    | none => none
  | none => none

/-- The set of already-present schema names built by `findMissingSchemas`:
mapped `@type` reads with the falsy ones dropped (`.filter(Boolean)`). -/
def existingTypes (jsonLd : List JVal) : List JVal :=
  (jsonLd.filterMap extractType).filter fun v => !isFalsy v

/-- Equality of a JSON value with a given string, the SameValueZero
comparison a JS `Set` applies when asked `has(name)` for a string `name`:
only an equal string value matches. -/
def isStrVal (name : String) : JVal → Bool
  | .str s => s = name
  | _ => false

/-- Membership test `existing.has(schema)` for a schema-name string. -/
def hasSchema (jsonLd : List JVal) (name : String) : Bool :=
  (existingTypes jsonLd).any (isStrVal name)

/-- `findMissingSchemas(recommendations, existingSchemas)`: each tier
filtered to the schemas not in the existing set. -/
def findMissingSchemas (recs : RecTiers) (existingSchemas : ExistingSchemas) : RecTiers :=
  { primary := recs.primary.filter fun schema => !hasSchema existingSchemas.jsonLd schema
    secondary := recs.secondary.filter fun schema => !hasSchema existingSchemas.jsonLd schema
    optional := recs.optional.filter fun schema => !hasSchema existingSchemas.jsonLd schema }

/-- `getSchemaDescription(schema)` lookup table with its default. -/
def getSchemaDescription (schema : String) : String :=
  (([("Article", "ニュース記事やブログ投稿"), ("Product", "商品情報"),
    ("LocalBusiness", "店舗・事業所情報"), ("Recipe", "レシピ情報"),
    ("Event", "イベント情報"), ("FAQPage", "よくある質問ページ"),
    ("HowTo", "ハウツー・手順説明"), ("Review", "レビュー・評価情報"),
    ("JobPosting", "求人情報"), ("Course", "講座・コース情報")] :
      List (String × String)).lookup schema).getD "コンテンツ"

/-- `getSchemaValue(schema)` lookup table with its default. -/
def getSchemaValue (schema : String) : String :=
  (([("Organization", "サイトの信頼性が向上します"), ("Person", "著者情報が明確になります"),
    ("BreadcrumbList", "ナビゲーション情報が改善されます"), ("Rating", "評価情報が表示されます"),
    ("AggregateRating", "平均評価が表示されます"), ("Offer", "価格・購入情報が表示されます")] :
      List (String × String)).lookup schema).getD "SEO効果が期待できます"

/-- `getSchemaOptionalValue(schema)` lookup table with its default. -/
def getSchemaOptionalValue (schema : String) : String :=
  (([("Comment", "コメント情報を構造化できます"), ("Video", "動画コンテンツが認識されます"),
    ("Brand", "ブランド情報が明確になります"), ("ContactPoint", "連絡先情報が整理されます")] :
      List (String × String)).lookup schema).getD "付加価値を提供します"

/-- `getSchemaDifficulty(schema)` lookup table with its default. -/
def getSchemaDifficulty (schema : String) : String :=
  (([("Article", "easy"), ("Product", "medium"), ("LocalBusiness", "medium"),
    ("Recipe", "hard"), ("Event", "medium"), ("FAQPage", "easy"), ("HowTo", "hard"),
    ("Review", "easy"), ("JobPosting", "medium"), ("Course", "medium")] :
      List (String × String)).lookup schema).getD "medium"

/-- `getSEOValue(schema)` lookup table with its default. -/
def getSEOValue (schema : String) : Nat :=
  (([("Article", 85), ("Product", 90), ("LocalBusiness", 88), ("Recipe", 92),
    ("Event", 85), ("FAQPage", 80), ("HowTo", 87), ("Review", 83),
    ("JobPosting", 85), ("Course", 82)] : List (String × Nat)).lookup schema).getD 75

/-- One recommendation item as assembled by `prioritizeRecommendations`. -/
structure RecommendationItem where
  schema : String
  priority : String
  reason : String
  impact : String
  difficulty : String
  seoValue : Nat
  deriving DecidableEq

/-- The three priority buckets produced by `prioritizeRecommendations`. -/
structure PrioritizedList where
  missing : List RecommendationItem
  improvements : List RecommendationItem
  optional : List RecommendationItem

/-- `prioritizeRecommendations(missingSchemas, pageData)`: primary misses
become `critical` items in `missing`, secondary misses `high` items in
`improvements`, optional misses `low` items in `optional`, in tier order.
(The `pageData` parameter of the source is never read in the body and is
dropped here.) -/
def prioritizeRecommendations (missingSchemas : RecTiers) : PrioritizedList :=
  { missing := missingSchemas.primary.map fun schema =>
      { schema := schema
        priority := "critical"
        reason := schema ++ "は" ++ getSchemaDescription schema ++ "として必須です"
        impact := "high"
        difficulty := getSchemaDifficulty schema
        seoValue := getSEOValue schema }
    improvements := missingSchemas.secondary.map fun schema =>
      { schema := schema
        priority := "high"
        reason := schema ++ "を追加することで" ++ getSchemaValue schema
        impact := "medium"
        difficulty := getSchemaDifficulty schema
        seoValue := getSEOValue schema }
    optional := missingSchemas.optional.map fun schema =>
      { schema := schema
        priority := "low"
        reason := schema ++ "は" ++ getSchemaOptionalValue schema
        impact := "low"
        difficulty := getSchemaDifficulty schema
        seoValue := getSEOValue schema } }

/-- The numeric expected-benefit figures of `calculateExpectedBenefits`
(the constant `description` strings of the source carry no data and are
omitted). -/
structure Benefits where
  richSnippetsProbability : Nat
  searchRankingImprovement : Nat
  ctrImprovement : Nat
  localSearchVisibility : Nat
  deriving DecidableEq

/-- `calculateExpectedBenefits(prioritizedList)`: bounded linear functions
of the bucket sizes, and the LocalBusiness/Organization test on the missing
bucket. -/
def calculateExpectedBenefits (prioritizedList : PrioritizedList) : Benefits :=
  let criticalItems := prioritizedList.missing.length
  let highItems := prioritizedList.improvements.length
  { richSnippetsProbability := min 90 (criticalItems * 30 + highItems * 15)
    searchRankingImprovement := min 20 (criticalItems * 5 + highItems * 3)
    ctrImprovement := min 25 (criticalItems * 8 + highItems * 5)
    localSearchVisibility :=
      if prioritizedList.missing.any fun item =>
          (["LocalBusiness", "Organization"] : List String).contains item.schema
      then 40 else 10 }

/-- The fields of the `generateRecommendations` result that carry
recommendation data (the phased implementation plan, business-specific
advice and the constant validation-step list are independent of the claims
verified here and are omitted). -/
structure RecommendationOutput where
  pageType : PageType
  confidence : Rat
  missing : List RecommendationItem
  improvements : List RecommendationItem
  optional : List RecommendationItem
  expectedBenefits : Benefits

/-- `generateRecommendations(pageAnalysis, existingSchemas, pageData)` on
the non-error path: catalog lookup, existing-schema filtering,
prioritization and benefit estimation.  (For a typed `ClassificationResult`
the `|| 'Article'` and `|| 0` falsy fallbacks of the source coincide with
the field reads.) -/
def generateRecommendations (pageAnalysis : ClassificationResult)
    (existingSchemas : ExistingSchemas) : RecommendationOutput :=
  let primaryType := pageAnalysis.primaryType
  let baseRecommendations := getBaseRecommendations primaryType
  let missingSchemas := findMissingSchemas baseRecommendations existingSchemas
  let prioritizedList := prioritizeRecommendations missingSchemas
  { pageType := primaryType
    confidence := pageAnalysis.confidence
    missing := prioritizedList.missing
    improvements := prioritizedList.improvements
    optional := prioritizedList.optional
    expectedBenefits := calculateExpectedBenefits prioritizedList }

/-! ## Schema templates (`src/unnamed/part_002`) -/

/-- The placeholder token for a data key, double open braces around the key
followed by double close braces. -/
def ph (key : String) : String := "\x7b\x7b" ++ key ++ "\x7d\x7d"

/-- The opening placeholder delimiter as a string. -/
def obStr : String := "\x7b\x7b"

/-- `getPersonTemplate()`: the Person entry of the `getTemplate` catalog
(the catalog holds fifteen templates; this is the one the placeholder-closure
counterexample below evaluates). -/
def getPersonTemplate : List (String × JVal) :=
  [("@context", .str "https://schema.org"),
   ("@type", .str "Person"),
   ("name", .str (ph "name")),
   ("jobTitle", .str (ph "jobTitle")),
   ("affiliation", .obj [("@type", .str "Organization"), ("name", .str (ph "organization"))]),
   ("url", .str (ph "website")),
   ("sameAs", .str (ph "socialProfiles"))]

/-- `extractDataFromPage(pageData, $, schemaType)` for a schema type that
has no case in the type dispatch switch (such as `Person`, `Organization`
or `BreadcrumbList`): only the three basic assignments run, and for truthy
`pageData` fields the document-side fallbacks never fire. -/
def extractBasicData (pageData : PageData) : List (String × String) :=
  [("title", pageData.title),
   ("description", pageData.metaDescription),
   ("url", pageData.url)]

/-- The per-data-entry global replacement loop of `fillTemplate`, applied to
one serialized string: `filledStr = filledStr.replace(new RegExp(ph, 'g'),
value || '')` for each extracted entry in order.  (Extracted values are
strings here, so `value || ''` is the value itself when non-empty and `''`
when empty — either way the value.) -/
def substStr (extractedData : List (String × String)) (s : String) : String :=
  extractedData.foldl (fun acc kv => strReplaceAll acc (ph kv.1) kv.2) s

mutual

/-- Placeholder substitution over a parsed JSON tree.  The source performs
the replacements on `JSON.stringify(template)` and re-parses; template keys
contain no placeholder and extracted values contain no quote, so the textual
replacement acts exactly on the string leaves. -/
def substVal (extractedData : List (String × String)) : JVal → JVal
  | .null => .null
  | .bool b => .bool b
  | .num q => .num q
  | .str s => .str (substStr extractedData s)
  | .arr items => .arr (substList extractedData items)
  | .obj fields => .obj (substFields extractedData fields)

/-- Placeholder substitution on a JSON array. -/
def substList (extractedData : List (String × String)) : List JVal → List JVal
  | [] => []
  | v :: vs => substVal extractedData v :: substList extractedData vs

/-- Placeholder substitution on object fields. -/
def substFields (extractedData : List (String × String)) :
    List (String × JVal) → List (String × JVal)
  | [] => []
  | f :: fs => (f.1, substVal extractedData f.2) :: substFields extractedData fs

end

/-- The array-element filter of `cleanSchema`: keep an item unless it is
null, undefined, the empty string, or a string containing the opening
placeholder delimiter (the `includes` test of the source). -/
def keepItem : JVal → Bool
  | .null => false
  | .str s => !(s = "" || strContains s obStr)
  | _ => true

/-- `cleanSchema(schema)`: drop a field whose value is `null`, the empty
string, or the placeholder named after the field's own key; recursively
clean object values and drop them when the cleaned object is empty; filter
array values elementwise and drop them when the filtered array is empty;
keep every other value as-is. -/
def cleanSchema : List (String × JVal) → List (String × JVal)
  | [] => []
  | (key, value) :: rest =>
    match value with
    | .null => cleanSchema rest
    | .str s =>
      if s = "" ∨ s = ph key then cleanSchema rest
      else (key, .str s) :: cleanSchema rest
    | .obj fields =>
      if (cleanSchema fields).isEmpty then cleanSchema rest
      else (key, .obj (cleanSchema fields)) :: cleanSchema rest
    | .arr items =>
      if (items.filter keepItem).isEmpty then cleanSchema rest
      else (key, .arr (items.filter keepItem)) :: cleanSchema rest
    | v => (key, v) :: cleanSchema rest

/-- `fillTemplate(template, pageData, $)` given the extracted data mapping:
substitute every placeholder occurrence of every extracted key, then clean
the result. -/
def fillTemplate (template : List (String × JVal))
    (extractedData : List (String × String)) : List (String × JVal) :=
  cleanSchema (substFields extractedData template)

mutual

/-- Whether any string leaf of a JSON value still contains a
placeholder-shaped token. -/
def jvalHasPH : JVal → Bool
  | .str s => strHasPH s
  | .arr items => listHasPH items
  | .obj fields => fieldsHasPH fields
  | _ => false

/-- Placeholder-token search over a JSON array. -/
def listHasPH : List JVal → Bool
  | [] => false
  | v :: vs => jvalHasPH v || listHasPH vs

/-- Placeholder-token search over object fields (field values only — keys
are not placeholder-bearing in any template). -/
def fieldsHasPH : List (String × JVal) → Bool
  | [] => false
  | f :: fs => jvalHasPH f.2 || fieldsHasPH fs

end

/-! ## Spec-side definitions

The following definitions are written from the words of the specification
and of the claims, for comparison against the source-derived definitions
above. -/

/-- Modelled from the spec: `keywordHits` "counts case-insensitive regex
occurrences of each keyword in the signature (summed, not capped at 1)". -/
def keywordHits (text : String) (keywords : List String) : Nat :=
  (keywords.map fun kw => strOccs (strLower text) (strLower kw)).sum

/-- Modelled from the spec: pattern hits "count substring containment
(0 or 1 per pattern, not regex-counted)". -/
def patternHits01 (text : String) (pats : List String) : Nat :=
  (pats.filter fun p => strContains text p).length

/-- Modelled from claim C2 / spec §4.1 step 2: the claimed base-score
formula, in which the content patterns contribute 0 or 1 each
(`patternHits01`), unlike the source, which counts their occurrences. -/
def specSingleTypeScore (type : PageType) (pageData : PageData) : Rat :=
  let pattern := patterns type
  weights.title * ((keywordHits pageData.title pattern.keywords : Rat)
      + (patternHits01 pageData.title pattern.titlePatterns : Rat))
    + weights.meta * (keywordHits pageData.metaDescription pattern.keywords : Rat)
    + weights.headings * (keywordHits (" ".intercalate pageData.headings) pattern.keywords : Rat)
    + weights.url * (patternHits01 pageData.url pattern.urlPatterns : Rat)
    + weights.content * ((keywordHits pageData.bodyText pattern.keywords : Rat)
      + (patternHits01 pageData.bodyText pattern.contentPatterns : Rat))

/-- Modelled from claim C6 / spec §4.1 step 3: the per-type special-element
bonus, written as an independent closed-form sum per page type. -/
def bonusFor (se : SpecialElements) : PageType → Rat
  | .Product => (if se.price then 10 else 0) + (if se.review then 5 else 0)
  | .Review => if se.review then 8 else 0
  | .Event => if se.event then 12 else 0
  | .Recipe => if se.recipe then 15 else 0
  | .FAQ => if se.faq then 15 else 0
  | .JobPosting => if se.job then 12 else 0
  | .Course => if se.course then 10 else 0
  | _ => 0

/-- The final score of a page type: base score plus special-element bonus. -/
def totalScore (pageData : PageData) (type : PageType) : Rat :=
  calculateSingleTypeScore type pageData + bonusFor pageData.specialElements type

/-- Modelled from claim C1: whether `name` occurs as an `@type` value of
some inventory entry's `data` object — as the scalar value or as any element
of an array value. -/
def specOccursAsTypeValue (jsonLd : List JVal) (name : String) : Bool :=
  jsonLd.any fun schema =>
    match objGet schema "data" with
    | some d =>
      match objGet d "@type" with
      | some (.arr l) => l.any (isStrVal name)
      | some v => isStrVal name v
      | none => false
    | none => false

/-! ## Score-table closed form -/

theorem condAdd_map (c : Bool) (u : PageType) (b : Rat) (f : PageType → Rat) :
    (if c then addScore (pageTypes.map fun t => (t, f t)) u b
     else pageTypes.map fun t => (t, f t))
    = pageTypes.map fun t => (t, f t + if c then (if t = u then b else 0) else 0) := by
  cases c with
  | false => simp
  | true =>
    simp only [if_true, addScore, List.map_map]
    apply List.map_congr_left
    intro t _
    simp only [Function.comp]
    split_ifs with h
    · simp
    · simp

theorem condAdd2_map (c : Bool) (u1 u2 : PageType) (b1 b2 : Rat) (f : PageType → Rat) :
    (if c then addScore (addScore (pageTypes.map fun t => (t, f t)) u1 b1) u2 b2
     else pageTypes.map fun t => (t, f t))
    = pageTypes.map fun t =>
        (t, f t + if c then (if t = u1 then b1 else 0) + (if t = u2 then b2 else 0) else 0) := by
  cases c with
  | false => simp
  | true =>
    simp only [if_true, addScore, List.map_map]
    apply List.map_congr_left
    intro t _
    simp only [Function.comp]
    split_ifs with h1 h2 <;> simp
    ring

theorem applyBonus_map (f : PageType → Rat) (se : SpecialElements) :
    applySpecialElementBonus (pageTypes.map fun t => (t, f t)) se
      = pageTypes.map fun t => (t, f t + bonusFor se t) := by
  simp only [applySpecialElementBonus, condAdd_map, condAdd2_map]
  apply List.map_congr_left
  intro t _
  cases t <;> simp [bonusFor]
  ring

theorem calcScores_eq (pd : PageData) :
    calculateTypeScores pd = pageTypes.map fun t => (t, totalScore pd t) := by
  unfold calculateTypeScores
  rw [applyBonus_map]
  rfl

theorem scoreOf_map (g : PageType → Rat) (t : PageType) :
    scoreOf (pageTypes.map fun u => (u, g u)) t = g t := by
  cases t <;> simp [scoreOf, pageTypes, List.find?]

/-! ## Stable descending sort: head characterization -/

instance : IsTotal (PageType × Rat) scoreGE := ⟨fun a b => le_total b.2 a.2⟩

instance : IsTrans (PageType × Rat) scoreGE := ⟨fun _ _ _ hab hbc => le_trans hbc hab⟩

/-- The entry the stable descending sort brings to the front: the first
entry, in list order, whose score is maximal (an earlier entry wins ties). -/
def firstMaxFrom (x : PageType × Rat) : List (PageType × Rat) → PageType × Rat
  | [] => x
  | y :: ys => if (firstMaxFrom y ys).2 ≤ x.2 then x else firstMaxFrom y ys

theorem head?_orderedInsert (x : PageType × Rat) (l : List (PageType × Rat)) :
    (List.orderedInsert scoreGE x l).head?
      = some (match l.head? with
              | none => x
              | some y => if y.2 ≤ x.2 then x else y) := by
  cases l with
  | nil => rfl
  | cons y ys =>
    simp only [List.orderedInsert, scoreGE, List.head?_cons]
    split_ifs <;> simp

theorem head?_sortDesc (x : PageType × Rat) (xs : List (PageType × Rat)) :
    (sortDesc (x :: xs)).head? = some (firstMaxFrom x xs) := by
  induction xs generalizing x with
  | nil => rfl
  | cons y ys ih =>
    show (List.orderedInsert scoreGE x (List.insertionSort scoreGE (y :: ys))).head? = _
    rw [head?_orderedInsert]
    rw [show (List.insertionSort scoreGE (y :: ys)).head? = some (firstMaxFrom y ys) from ih y]
    simp [firstMaxFrom]

theorem firstMaxFrom_mem (x : PageType × Rat) (xs : List (PageType × Rat)) :
    firstMaxFrom x xs ∈ x :: xs := by
  induction xs generalizing x with
  | nil => simp [firstMaxFrom]
  | cons y ys ih =>
    simp only [firstMaxFrom]
    split_ifs with h
    · exact List.mem_cons_self _ _
    · exact List.mem_cons_of_mem _ (ih y)

theorem firstMaxFrom_max (x : PageType × Rat) (xs : List (PageType × Rat)) :
    ∀ q ∈ x :: xs, q.2 ≤ (firstMaxFrom x xs).2 := by
  induction xs generalizing x with
  | nil => simp [firstMaxFrom]
  | cons y ys ih =>
    intro q hq
    simp only [firstMaxFrom]
    rcases List.mem_cons.mp hq with hq | hq
    · subst hq
      split_ifs with h
      · exact le_refl _
      · exact le_of_lt (lt_of_le_of_lt (le_refl _) (not_le.mp h))
    · have hmax := ih y q hq
      split_ifs with h
      · exact le_trans hmax h
      · exact hmax

theorem firstMaxFrom_first (x : PageType × Rat) (xs : List (PageType × Rat)) :
    ∃ pre post, x :: xs = pre ++ firstMaxFrom x xs :: post
      ∧ ∀ q ∈ pre, q.2 < (firstMaxFrom x xs).2 := by
  induction xs generalizing x with
  | nil => exact ⟨[], [], rfl, by simp⟩
  | cons y ys ih =>
    simp only [firstMaxFrom]
    split_ifs with h
    · exact ⟨[], y :: ys, rfl, by simp⟩
    · obtain ⟨pre, post, heq, hlt⟩ := ih y
      refine ⟨x :: pre, post, by rw [List.cons_append, ← heq], ?_⟩
      intro q hq
      rcases List.mem_cons.mp hq with hq | hq
      · subst hq
        exact not_le.mp h
      · exact hlt q hq

/-! ## Bridge lemmas between the source accumulators and the spec forms -/

theorem foldl_add_count {α : Type} (f : α → Nat) :
    ∀ (l : List α) (n : Nat), l.foldl (fun c x => c + f x) n = n + (l.map f).sum := by
  intro l
  induction l with
  | nil => simp
  | cons x xs ih => intro n; simp [ih, Nat.add_assoc]

theorem foldl_if_count {α : Type} (p : α → Bool) :
    ∀ (l : List α) (n : Nat),
      l.foldl (fun c x => if p x then c + 1 else c) n = n + (l.filter p).length := by
  intro l
  induction l with
  | nil => simp
  | cons x xs ih =>
    intro n
    by_cases h : p x <;> simp [h, ih]
    omega

theorem strOccs_empty_text (pat : String) : strOccs "" pat = 0 := rfl

theorem countMatches_eq_keywordHits (text : String) (ks : List String) :
    countMatches text ks = keywordHits text ks := by
  unfold countMatches keywordHits
  split
  · rename_i h
    subst h
    simp [strLower, strOccs, countOccs, countOccsF]
  · simpa using foldl_add_count (fun kw => strOccs (strLower text) (strLower kw)) ks 0

theorem countPatternMatches_eq_patternHits01 (text : String) (pats : List String)
    (h : "" ∉ pats) : countPatternMatches text pats = patternHits01 text pats := by
  unfold countPatternMatches patternHits01
  split
  · rename_i he
    subst he
    have : pats.filter (fun p => strContains "" p) = [] := by
      rw [List.filter_eq_nil_iff]
      intro p hp
      have hne : p ≠ "" := fun e => h (e ▸ hp)
      have : p.data ≠ [] := by
        intro e
        exact hne (by cases p with | mk d => simpa using congrArg String.mk e)
      simp [strContains, containsL, List.isEmpty, this]
      cases hd : p.data with
      | nil => exact absurd hd this
      | cons a l => simp
    simp [this]
  · simpa using foldl_if_count (fun p => strContains text p) pats 0

/-! ## cleanSchema: idempotence and output shape -/

theorem cleanSchema_idem : ∀ l : List (String × JVal), cleanSchema (cleanSchema l) = cleanSchema l := by
  intro l
  induction l using cleanSchema.induct <;>
    simp_all [cleanSchema, List.filter_filter, List.isEmpty_iff]
  rename_i key rest items h ih
  rw [if_neg (fun hc => by obtain ⟨x, hx, hk⟩ := h; exact absurd (hc x hx) (by simp [hk]))]
  simp_all [cleanSchema, List.filter_filter, List.isEmpty_iff]

theorem cleanSchema_sound : ∀ (l : List (String × JVal)) (kv : String × JVal), kv ∈ cleanSchema l →
    kv.2 ≠ .null ∧ kv.2 ≠ .str "" ∧ kv.2 ≠ .str (ph kv.1)
    ∧ (∀ items, kv.2 = .arr items → items ≠ [] ∧ ∀ it ∈ items, keepItem it = true)
    ∧ (∀ fields, kv.2 = .obj fields → fields ≠ [] ∧ cleanSchema fields = fields) := by
  intro l
  induction l using cleanSchema.induct with
  | case1 => intro kv hkv; simp [cleanSchema] at hkv
  | case2 key rest ih =>
    intro kv hkv
    simp only [cleanSchema] at hkv
    exact ih _ hkv
  | case3 key rest s h ih =>
    intro kv hkv
    simp only [cleanSchema] at hkv
    rw [if_pos h] at hkv
    exact ih _ hkv
  | case4 key rest s h ih =>
    intro kv hkv
    simp only [cleanSchema] at hkv
    rw [if_neg h] at hkv
    rcases List.mem_cons.mp hkv with hx | hx
    · subst hx
      push_neg at h
      exact ⟨by simp, by simp [h.1], by simp [h.2], by simp, by simp⟩
    · exact ih _ hx
  | case5 key rest fields h ihf ih =>
    intro kv hkv
    simp only [cleanSchema] at hkv
    rw [if_pos h] at hkv
    exact ih _ hkv
  | case6 key rest fields h ihf ih =>
    intro kv hkv
    simp only [cleanSchema] at hkv
    rw [if_neg h] at hkv
    rcases List.mem_cons.mp hkv with hx | hx
    · subst hx
      refine ⟨by simp, by simp, by simp, by simp, ?_⟩
      intro fs hfs
      have hfs' : cleanSchema fields = fs := by
        simpa using hfs
      subst hfs'
      refine ⟨?_, cleanSchema_idem fields⟩
      intro he
      exact h (by simp [he])
    · exact ih _ hx
  | case7 key rest items h ih =>
    intro kv hkv
    simp only [cleanSchema] at hkv
    rw [if_pos h] at hkv
    exact ih _ hkv
  | case8 key rest items h ih =>
    intro kv hkv
    simp only [cleanSchema] at hkv
    rw [if_neg h] at hkv
    rcases List.mem_cons.mp hkv with hx | hx
    · subst hx
      refine ⟨by simp, by simp, by simp, ?_, by simp⟩
      intro its hits
      have hits' : items.filter keepItem = its := by
        simpa using hits
      subst hits'
      refine ⟨?_, ?_⟩
      · intro he
        exact h (by simp [he])
      · intro it hit
        exact (List.mem_filter.mp hit).2
    · exact ih _ hx
  | case9 key rest v h1 h2 h3 h4 ih =>
    intro kv hkv
    cases v with
    | null => exact absurd rfl h1
    | str s => exact absurd rfl (h2 s)
    | obj fields => exact absurd rfl (h3 fields)
    | arr items => exact absurd rfl (h4 items)
    | bool b =>
      simp only [cleanSchema] at hkv
      rcases List.mem_cons.mp hkv with hx | hx
      · subst hx
        exact ⟨by simp, by simp, by simp, by simp, by simp⟩
      · exact ih _ hx
    | num q =>
      simp only [cleanSchema] at hkv
      rcases List.mem_cons.mp hkv with hx | hx
      · subst hx
        exact ⟨by simp, by simp, by simp, by simp, by simp⟩
      · exact ih _ hx

/-! ## Concrete evaluations used by the template-closure claim -/

/-- A page on which the basic extraction returns truthy, placeholder-free
values for all three basic keys. -/
def personPage : PageData :=
  ⟨"著者紹介", "プロフィール", [], "https://example.com/author", "",
   ⟨false, false, false, false, false, false, false⟩⟩

theorem fillPerson_eval :
    fillTemplate getPersonTemplate (extractBasicData personPage) =
      [("@context", .str "https://schema.org"), ("@type", .str "Person"),
       ("affiliation", .obj [("@type", .str "Organization"), ("name", .str (ph "organization"))]),
       ("url", .str (ph "website")), ("sameAs", .str (ph "socialProfiles"))] := by
  have e1 : substStr (extractBasicData personPage) "https://schema.org" = "https://schema.org" := by
    decide
  have e2 : substStr (extractBasicData personPage) "Person" = "Person" := by decide
  have e3 : substStr (extractBasicData personPage) (ph "name") = ph "name" := by decide
  have e4 : substStr (extractBasicData personPage) (ph "jobTitle") = ph "jobTitle" := by decide
  have e5 : substStr (extractBasicData personPage) "Organization" = "Organization" := by decide
  have e6 : substStr (extractBasicData personPage) (ph "organization") = ph "organization" := by
    decide
  have e7 : substStr (extractBasicData personPage) (ph "website") = ph "website" := by decide
  have e8 : substStr (extractBasicData personPage) (ph "socialProfiles") = ph "socialProfiles" := by
    decide
  have hsub : substFields (extractBasicData personPage) getPersonTemplate = getPersonTemplate := by
    simp only [getPersonTemplate, substFields, substVal, e1, e2, e3, e4, e5, e6, e7, e8]
  show cleanSchema (substFields (extractBasicData personPage) getPersonTemplate) = _
  rw [hsub]
  simp only [getPersonTemplate, cleanSchema]
  simp [ph]

/-! ## Claims -/

/-- C5: for every supported PageType, the primary, secondary and optional
schema-name lists in the static recommendation catalog are pairwise
disjoint: no schema name appears in more than one tier of the same
PageType's entry. -/
theorem claim_C5 (pt : PageType) :
    (∀ s ∈ (recommendations pt).primary,
        s ∉ (recommendations pt).secondary ∧ s ∉ (recommendations pt).optional)
    ∧ ∀ s ∈ (recommendations pt).secondary, s ∉ (recommendations pt).optional := by
  cases pt <;> decide

/-- Witness for C5 at the Article entry and the schema name Article. -/
theorem claim_C5_witness :
    "Article" ∈ (recommendations .Article).primary
    ∧ "Article" ∉ (recommendations .Article).secondary
    ∧ "Article" ∉ (recommendations .Article).optional :=
  ⟨by decide, ((claim_C5 .Article).1 "Article" (by decide)).1,
    ((claim_C5 .Article).1 "Article" (by decide)).2⟩

/-- C6: after base scoring, each final score equals the base score plus the
independent special-element bonus of that type (price +10 Product, review
+8 Review and +5 Product, event +12 Event, recipe +15 Recipe, faq +15 FAQ,
job +12 JobPosting, course +10 Course), and no other score changes. -/
theorem claim_C6 (pd : PageData) (t : PageType) :
    scoreOf (calculateTypeScores pd) t
      = calculateSingleTypeScore t pd + bonusFor pd.specialElements t := by
  rw [calcScores_eq]
  exact scoreOf_map (totalScore pd) t

/-- C7: the expected-benefit figures are exactly the bounded linear
functions of the critical (missing) and high (improvements) item counts
stated in the spec, and local-search visibility is 40 exactly when some
missing item names LocalBusiness or Organization, else 10. -/
theorem claim_C7 (pl : PrioritizedList) :
    (calculateExpectedBenefits pl).richSnippetsProbability
        = min 90 (30 * pl.missing.length + 15 * pl.improvements.length)
    ∧ (calculateExpectedBenefits pl).searchRankingImprovement
        = min 20 (5 * pl.missing.length + 3 * pl.improvements.length)
    ∧ (calculateExpectedBenefits pl).ctrImprovement
        = min 25 (8 * pl.missing.length + 5 * pl.improvements.length)
    ∧ (calculateExpectedBenefits pl).localSearchVisibility
        = if ∃ item ∈ pl.missing, item.schema = "LocalBusiness" ∨ item.schema = "Organization"
          then 40 else 10 := by
  refine ⟨by simp [calculateExpectedBenefits, Nat.mul_comm],
    by simp [calculateExpectedBenefits, Nat.mul_comm],
    by simp [calculateExpectedBenefits, Nat.mul_comm], ?_⟩
  simp only [calculateExpectedBenefits]
  by_cases h : ∃ item ∈ pl.missing, item.schema = "LocalBusiness" ∨ item.schema = "Organization"
  · rw [if_pos h, if_pos]
    obtain ⟨it, hit, hs⟩ := h
    refine List.any_eq_true.mpr ⟨it, hit, ?_⟩
    rcases hs with h' | h' <;> simp [h']
  · rw [if_neg h, if_neg]
    intro hc
    obtain ⟨it, hit, hcon⟩ := List.any_eq_true.mp hc
    exact h ⟨it, hit, by simpa using hcon⟩

/-- C10: `cleanSchema` is idempotent — one cleanup pass reaches a fixed
point, so re-cleaning an already cleaned schema changes nothing. -/
theorem claim_C10 (schema : List (String × JVal)) :
    cleanSchema (cleanSchema schema) = cleanSchema schema :=
  cleanSchema_idem schema

/-- The page on which the claimed and actual content-pattern counting
differ: no title, meta description, headings or URL, and a body text
containing the Article content pattern 公開日 twice. -/
def contentPatternPage : PageData :=
  ⟨"", "", [], "", "公開日公開日", ⟨false, false, false, false, false, false, false⟩⟩

/-- Counterexample to C2: on `contentPatternPage` the source computes an
Article base score of 2 (the content pattern 公開日 is regex-counted, twice,
at weight 1), while the claimed formula — content patterns contributing 0
or 1 each — yields 1. -/
theorem claim_C2_counterexample :
    calculateSingleTypeScore .Article contentPatternPage = 2
    ∧ specSingleTypeScore .Article contentPatternPage = 1 := by
  have h1 : countMatches "公開日公開日" (patterns .Article).keywords = 0 := by decide
  have h2 : countMatches "公開日公開日" (patterns .Article).contentPatterns = 2 := by decide
  have h3 : countMatches "" (patterns .Article).keywords = 0 := by decide
  have h4 : countPatternMatches "" (patterns .Article).titlePatterns = 0 := by decide
  have h5 : countPatternMatches "" (patterns .Article).urlPatterns = 0 := by decide
  have k1 : keywordHits "公開日公開日" (patterns .Article).keywords = 0 := by decide
  have k2 : patternHits01 "公開日公開日" (patterns .Article).contentPatterns = 1 := by decide
  have k3 : keywordHits "" (patterns .Article).keywords = 0 := by decide
  have k4 : patternHits01 "" (patterns .Article).titlePatterns = 0 := by decide
  have k5 : patternHits01 "" (patterns .Article).urlPatterns = 0 := by decide
  constructor
  · simp only [calculateSingleTypeScore, contentPatternPage, String.intercalate]
    norm_num [h1, h2, h3, h4, h5, weights]
  · simp only [specSingleTypeScore, contentPatternPage, String.intercalate]
    norm_num [k1, k2, k3, k4, k5, weights]

/-- C2 as amended: the base score follows the claimed weighted formula
except that the content patterns, like the keywords, contribute their
case-insensitive regex occurrence count in the body text (uncapped), not 0
or 1 per pattern. -/
theorem claim_C2 (pd : PageData) (t : PageType) :
    calculateSingleTypeScore t pd
      = weights.title * ((keywordHits pd.title (patterns t).keywords : Rat)
          + (patternHits01 pd.title (patterns t).titlePatterns : Rat))
        + weights.meta * (keywordHits pd.metaDescription (patterns t).keywords : Rat)
        + weights.headings * (keywordHits (" ".intercalate pd.headings) (patterns t).keywords : Rat)
        + weights.url * (patternHits01 pd.url (patterns t).urlPatterns : Rat)
        + weights.content * ((keywordHits pd.bodyText (patterns t).keywords : Rat)
          + (keywordHits pd.bodyText (patterns t).contentPatterns : Rat)) := by
  have hti : "" ∉ (patterns t).titlePatterns := by cases t <;> decide
  have hur : "" ∉ (patterns t).urlPatterns := by cases t <;> decide
  rw [calculateSingleTypeScore,
    countPatternMatches_eq_patternHits01 pd.title (patterns t).titlePatterns hti,
    countPatternMatches_eq_patternHits01 pd.url (patterns t).urlPatterns hur]
  simp only [countMatches_eq_keywordHits]
  ring

/-- A classification result naming Article, as the classifier produces for
a page with no signal. -/
def articleAnalysis : ClassificationResult :=
  { primaryType := .Article, secondaryTypes := [], confidence := 0, allScores := [] }

/-- An inventory whose single JSON-LD entry is a record with a `data` field
whose `@type` is the array of the strings Foo and Article: the schema name
Article occurs as an `@type` value, but only in the second array position. -/
def arrayTypeInventory : ExistingSchemas :=
  { jsonLd := [.obj [("data", .obj [("@type", .arr [.str "Foo", .str "Article"])])]]
    microdata := []
    rdfa := [] }

/-- Counterexample to C1: the inventory's entry carries Article as an
`@type` array element, yet `generateRecommendations` still lists Article in
`missing`, because `findMissingSchemas` reads only the first element of an
array-valued `@type`. -/
theorem claim_C1_counterexample :
    specOccursAsTypeValue arrayTypeInventory.jsonLd "Article" = true
    ∧ ((generateRecommendations articleAnalysis arrayTypeInventory).missing.map
        (fun item => item.schema)).contains "Article" = true := by
  decide

/-- C1 as amended: the three recommendation lists contain no schema name
that the recommender's own extraction finds in the inventory — a scalar
`@type` counts as itself, an array-valued `@type` counts only through its
first element (and only when truthy) — and every missing item names a
schema from the primary tier of the classified type, every improvement one
from the secondary tier, every optional one from the optional tier. -/
theorem claim_C1 (pa : ClassificationResult) (inv : ExistingSchemas)
    (item : RecommendationItem) :
    (item ∈ (generateRecommendations pa inv).missing →
      hasSchema inv.jsonLd item.schema = false
      ∧ item.schema ∈ (recommendations pa.primaryType).primary)
    ∧ (item ∈ (generateRecommendations pa inv).improvements →
      hasSchema inv.jsonLd item.schema = false
      ∧ item.schema ∈ (recommendations pa.primaryType).secondary)
    ∧ (item ∈ (generateRecommendations pa inv).optional →
      hasSchema inv.jsonLd item.schema = false
      ∧ item.schema ∈ (recommendations pa.primaryType).optional) := by
  refine ⟨?_, ?_, ?_⟩ <;>
  · intro hmem
    simp only [generateRecommendations, prioritizeRecommendations, findMissingSchemas,
      getBaseRecommendations, List.mem_map] at hmem
    obtain ⟨s, hs, rfl⟩ := hmem
    obtain ⟨hsmem, hns⟩ := List.mem_filter.mp hs
    exact ⟨by simpa using hns, by simpa using hsmem⟩

/-- Witness for C1 at the Article classification, an empty inventory, and
the concrete critical Article item built by `prioritizeRecommendations`. -/
theorem claim_C1_witness :
    hasSchema (ExistingSchemas.mk [] [] []).jsonLd "Article" = false
    ∧ "Article" ∈ (recommendations articleAnalysis.primaryType).primary :=
  (claim_C1 articleAnalysis (ExistingSchemas.mk [] [] [])
    ⟨"Article", "critical", "Articleはニュース記事やブログ投稿として必須です", "high", "easy", 85⟩).1
    (by decide)

/-- C9: when the inventory's `jsonLd` array holds the parsed JSON-LD
objects directly — the shape `checkStructuredData` actually builds, with no
`data` wrapper field — no existing schema is detected, and the three
recommendation lists name the full primary, secondary and optional tiers of
the classified type, even when the page already embeds those schemas. -/
theorem claim_C9 (pa : ClassificationResult) (inv : ExistingSchemas)
    (h : ∀ e ∈ inv.jsonLd, objGet e "data" = none) :
    ((generateRecommendations pa inv).missing.map (fun item => item.schema)
        = (recommendations pa.primaryType).primary)
    ∧ ((generateRecommendations pa inv).improvements.map (fun item => item.schema)
        = (recommendations pa.primaryType).secondary)
    ∧ ((generateRecommendations pa inv).optional.map (fun item => item.schema)
        = (recommendations pa.primaryType).optional) := by
  have hext : ∀ e ∈ inv.jsonLd, extractType e = none := by
    intro e he
    simp [extractType, h e he]
  have hex : existingTypes inv.jsonLd = [] := by
    have : inv.jsonLd.filterMap extractType = [] := by
      rw [List.filterMap_eq_nil_iff]
      exact hext
    simp [existingTypes, this]
  have hhs : ∀ name, hasSchema inv.jsonLd name = false := by
    intro name
    simp [hasSchema, hex]
  simp [generateRecommendations, prioritizeRecommendations, findMissingSchemas,
    getBaseRecommendations, hhs, List.map_map, Function.comp_def]

/-- The inventory shape `checkStructuredData` builds for a page embedding
an Article JSON-LD block: the parsed object itself, with no `data`
wrapper. -/
def directInventory : ExistingSchemas :=
  { jsonLd := [.obj [("@type", .str "Article")]], microdata := [], rdfa := [] }

/-- Witness for C9: with an Article page classification and an inventory
already embedding an Article block in the caller's direct shape, the
missing list still names the whole Article primary tier. -/
theorem claim_C9_witness :
    (generateRecommendations articleAnalysis directInventory).missing.map
        (fun item => item.schema)
      = (recommendations articleAnalysis.primaryType).primary :=
  (claim_C9 articleAnalysis directInventory
    (by intro e he; rw [show e = JVal.obj [("@type", .str "Article")] by simpa [directInventory] using he]; rfl)).1

/-- Counterexample to C3: filling the catalog's Person template for
`personPage` (whose extracted data is exactly the basic
title/description/url mapping, the source's output for a schema type with
no dispatch case) leaves placeholder tokens in the result — among them the
url field's website placeholder, which `cleanSchema` keeps because it only
drops a string equal to the placeholder named after the field's own key. -/
theorem claim_C3_counterexample :
    fieldsHasPH (fillTemplate getPersonTemplate (extractBasicData personPage)) = true := by
  rw [fillPerson_eval]
  simp only [fieldsHasPH, jvalHasPH, listHasPH]
  decide

/-- C3 as amended: after `fillTemplate`, every surviving field value is
non-null, non-empty and differs from the placeholder named after the
field's own key; every surviving array is non-empty and free of
null/empty/placeholder-bearing string elements; every surviving object
value is non-empty and itself a `cleanSchema` fixed point.  Placeholders
whose name differs from the field's key may remain in string values (see
the counterexample), so full placeholder closure does not hold. -/
theorem claim_C3 (template : List (String × JVal)) (extractedData : List (String × String))
    (kv : String × JVal) (h : kv ∈ fillTemplate template extractedData) :
    kv.2 ≠ .null ∧ kv.2 ≠ .str "" ∧ kv.2 ≠ .str (ph kv.1)
    ∧ (∀ items, kv.2 = .arr items → items ≠ [] ∧ ∀ it ∈ items, keepItem it = true)
    ∧ (∀ fields, kv.2 = .obj fields → fields ≠ [] ∧ cleanSchema fields = fields) :=
  cleanSchema_sound _ kv h

/-- Witness for C3 at the filled Person template's first output field. -/
theorem claim_C3_witness :
    JVal.str "https://schema.org" ≠ JVal.null
    ∧ JVal.str "https://schema.org" ≠ JVal.str ""
    ∧ JVal.str "https://schema.org" ≠ JVal.str (ph "@context") := by
  have hmem : ("@context", JVal.str "https://schema.org")
      ∈ fillTemplate getPersonTemplate (extractBasicData personPage) := by
    rw [fillPerson_eval]
    simp
  obtain ⟨h1, h2, h3, _, _⟩ := claim_C3 getPersonTemplate (extractBasicData personPage) _ hmem
  exact ⟨h1, h2, h3⟩

/-! ## The degenerate document and the stable tie-break -/

theorem singleScore_empty (t : PageType) : calculateSingleTypeScore t emptyPageData = 0 := by
  simp [calculateSingleTypeScore, emptyPageData, countMatches, countPatternMatches,
    String.intercalate]

theorem bonusFor_empty (t : PageType) : bonusFor emptyPageData.specialElements t = 0 := by
  cases t <;> simp [bonusFor, emptyPageData]

theorem totalScore_empty (t : PageType) : totalScore emptyPageData t = 0 := by
  simp only [totalScore, singleScore_empty, bonusFor_empty, add_zero]

theorem scoresEmpty_eq :
    calculateTypeScores emptyPageData = pageTypes.map fun t => (t, (0 : Rat)) := by
  rw [calcScores_eq]
  apply List.map_congr_left
  intro t _
  rw [totalScore_empty]

theorem sortDesc_constScores :
    sortDesc (pageTypes.map fun t => (t, (0 : Rat))) = pageTypes.map fun t => (t, (0 : Rat)) := by
  apply List.Sorted.insertionSort_eq
  simp [pageTypes, List.sorted_cons, scoreGE]

theorem analyzePage_empty :
    (analyzePage emptyPageData).primaryType = .Article
    ∧ (analyzePage emptyPageData).confidence = 0 := by
  constructor
  · simp only [analyzePage, getTopTypes, scoresEmpty_eq, sortDesc_constScores]
    simp [pageTypes]
  · show scoreOf (calculateTypeScores emptyPageData) _ = 0
    rw [scoresEmpty_eq]
    rw [scoreOf_map (fun _ => (0 : Rat))]

theorem mem_pageTypes (t : PageType) : t ∈ pageTypes := by
  cases t <;> simp [pageTypes]

theorem mem_scores_eq (g : PageType → Rat) :
    ∀ q ∈ pageTypes.map (fun t => (t, g t)), q = (q.1, g q.1) := by
  intro q hq
  obtain ⟨u, _, rfl⟩ := List.mem_map.mp hq
  rfl

theorem tieBreak (pd : PageData) (t : PageType)
    (htie : scoreOf (calculateTypeScores pd) t
      = scoreOf (calculateTypeScores pd) (analyzePage pd).primaryType) :
    pageTypes.indexOf (analyzePage pd).primaryType ≤ pageTypes.indexOf t := by
  have hs := calcScores_eq pd
  set g := totalScore pd with hg
  have hcons : calculateTypeScores pd
      = (PageType.Article, g PageType.Article)
        :: ([.Product, .LocalBusiness, .Recipe, .Event, .FAQ, .HowTo, .Review,
             .JobPosting, .Course].map fun u => (u, g u)) := by
    rw [hs]; rfl
  set x0 : PageType × Rat := (PageType.Article, g PageType.Article) with hx0
  set xs := ([.Product, .LocalBusiness, .Recipe, .Event, .FAQ, .HowTo, .Review,
      .JobPosting, .Course] : List PageType).map fun u => (u, g u) with hxs
  set m := firstMaxFrom x0 xs with hm
  have hhead : (sortDesc (calculateTypeScores pd)).head? = some m := by
    rw [hcons]; exact head?_sortDesc x0 xs
  obtain ⟨tl, htl⟩ : ∃ tl, sortDesc (calculateTypeScores pd) = m :: tl := by
    cases hsd : sortDesc (calculateTypeScores pd) with
    | nil => rw [hsd] at hhead; simp at hhead
    | cons a tl' =>
      rw [hsd] at hhead
      simp at hhead
      exact ⟨tl', by rw [hhead]⟩
  have hprim : (analyzePage pd).primaryType = m.1 := by
    show ((getTopTypes (calculateTypeScores pd)).headD .Article) = m.1
    simp [getTopTypes, htl]
  have hscore : ∀ u, scoreOf (calculateTypeScores pd) u = g u := by
    intro u; rw [hs]; exact scoreOf_map g u
  rw [hprim] at htie ⊢
  rw [hscore, hscore] at htie
  have hm_mem : m ∈ calculateTypeScores pd := by
    rw [hcons]; exact firstMaxFrom_mem x0 xs
  have hm_eq : m = (m.1, g m.1) := mem_scores_eq g m (hs ▸ hm_mem)
  have hm2 : m.2 = g m.1 := by rw [hm_eq]
  obtain ⟨pre, post, heq, hlt⟩ := firstMaxFrom_first x0 xs
  have hsplit : calculateTypeScores pd = pre ++ m :: post := by rw [hcons, heq]
  have hfst : pageTypes = pre.map Prod.fst ++ m.1 :: post.map Prod.fst := by
    have h1 : (calculateTypeScores pd).map Prod.fst = pageTypes := by
      rw [hs, List.map_map]
      simp [Function.comp_def]
    rw [← h1, hsplit]
    simp
  have hpre_lt : ∀ q ∈ pre, q.2 < g m.1 := by
    intro q hq
    rw [← hm2]
    exact hlt q hq
  have hpre_val : ∀ q ∈ pre, q = (q.1, g q.1) := by
    intro q hq
    apply mem_scores_eq g
    rw [← hs, hsplit]
    exact List.mem_append_left _ hq
  have hm_notin : m.1 ∉ pre.map Prod.fst := by
    intro hc
    obtain ⟨q, hq, hq1⟩ := List.mem_map.mp hc
    have := hpre_lt q hq
    rw [hpre_val q hq, hq1] at this
    simp at this
  have ht_notin : t ∉ pre.map Prod.fst := by
    intro hc
    obtain ⟨q, hq, hq1⟩ := List.mem_map.mp hc
    have hql := hpre_lt q hq
    rw [hpre_val q hq, hq1] at hql
    simp only at hql
    rw [htie] at hql
    exact absurd hql (lt_irrefl _)
  rw [hfst, List.indexOf_append_of_not_mem hm_notin, List.indexOf_append_of_not_mem ht_notin]
  simp [List.indexOf_cons_self]

/-- C4: the degenerate document — no title, no meta description, no
headings, no URL, no body text, no special element detected — classifies as
Article with confidence 0 (`analyzePage` is total here, so nothing is
thrown); and in general, among types tied on the final score the returned
top entry is the one earliest in the signature-table declaration order,
Article first. -/
theorem claim_C4 :
    ((analyzePage emptyPageData).primaryType = .Article
      ∧ (analyzePage emptyPageData).confidence = 0)
    ∧ ∀ (pd : PageData) (t : PageType),
        scoreOf (calculateTypeScores pd) t
            = scoreOf (calculateTypeScores pd) (analyzePage pd).primaryType →
          pageTypes.indexOf (analyzePage pd).primaryType ≤ pageTypes.indexOf t :=
  ⟨analyzePage_empty, tieBreak⟩

/-- Witness for C4's tie-break implication: on the degenerate document,
Product ties with the primary type (both score 0), and Article's
declaration index is no greater than Product's. -/
theorem claim_C4_witness :
    pageTypes.indexOf (analyzePage emptyPageData).primaryType
      ≤ pageTypes.indexOf PageType.Product :=
  claim_C4.2 emptyPageData PageType.Product (by
    rw [scoresEmpty_eq, scoreOf_map (fun _ => (0 : Rat)), scoreOf_map (fun _ => (0 : Rat))])

/-- C8: for every (successful) run of `analyzePage`, the returned
confidence is the primary type's raw, unnormalized score as recorded in
`allScores`; the primary type's score is maximal among all final scores;
and the secondary types are exactly the second- and third-ranked types by
descending final score: two further distinct types whose scores sit between
the primary's and everything else's. -/
theorem claim_C8 (pd : PageData) :
    (analyzePage pd).confidence = scoreOf (analyzePage pd).allScores (analyzePage pd).primaryType
    ∧ (∀ t, scoreOf (analyzePage pd).allScores t ≤ (analyzePage pd).confidence)
    ∧ ∃ s1 s2, (analyzePage pd).secondaryTypes = [s1, s2]
        ∧ (analyzePage pd).primaryType ≠ s1 ∧ (analyzePage pd).primaryType ≠ s2 ∧ s1 ≠ s2
        ∧ scoreOf (analyzePage pd).allScores s1 ≤ (analyzePage pd).confidence
        ∧ scoreOf (analyzePage pd).allScores s2 ≤ scoreOf (analyzePage pd).allScores s1
        ∧ ∀ t, t ≠ (analyzePage pd).primaryType → t ≠ s1 → t ≠ s2 →
            scoreOf (analyzePage pd).allScores t ≤ scoreOf (analyzePage pd).allScores s2 := by
  have hs := calcScores_eq pd
  set g := totalScore pd with hg
  have hsorted := List.sorted_insertionSort scoreGE (calculateTypeScores pd)
  have hperm := List.perm_insertionSort scoreGE (calculateTypeScores pd)
  have hlen : (List.insertionSort scoreGE (calculateTypeScores pd)).length = 10 := by
    rw [hperm.length_eq, hs]
    simp [pageTypes]
  have hval : ∀ q ∈ List.insertionSort scoreGE (calculateTypeScores pd), q = (q.1, g q.1) := by
    intro q hq
    exact mem_scores_eq g q (hs ▸ hperm.subset hq)
  have hnodup : (List.insertionSort scoreGE (calculateTypeScores pd)).Nodup := by
    refine hperm.nodup_iff.mpr ?_
    rw [hs]
    exact List.Nodup.map (fun u v huv => congrArg Prod.fst huv) (by decide)
  have hscore : ∀ u, scoreOf (calculateTypeScores pd) u = g u := by
    intro u; rw [hs]; exact scoreOf_map g u
  cases hE : List.insertionSort scoreGE (calculateTypeScores pd) with
  | nil => rw [hE] at hlen; simp at hlen
  | cons a rest1 =>
  cases hE1 : rest1 with
  | nil => rw [hE, hE1] at hlen; simp at hlen
  | cons b rest2 =>
  cases hE2 : rest2 with
  | nil => rw [hE, hE1, hE2] at hlen; simp at hlen
  | cons c tl =>
  rw [hE1, hE2] at hE
  rw [hE] at hsorted hval hnodup
  have hprim : (analyzePage pd).primaryType = a.1 := by
    show ((getTopTypes (calculateTypeScores pd)).headD .Article) = a.1
    simp [getTopTypes, sortDesc, hE]
  have hsec : (analyzePage pd).secondaryTypes = [b.1, c.1] := by
    show (((getTopTypes (calculateTypeScores pd))).drop 1).take 2 = _
    simp [getTopTypes, sortDesc, hE]
  have hconf : (analyzePage pd).confidence = scoreOf (calculateTypeScores pd) a.1 := by
    show scoreOf (calculateTypeScores pd) ((getTopTypes (calculateTypeScores pd)).headD .Article)
      = _
    rw [show ((getTopTypes (calculateTypeScores pd)).headD .Article) = a.1 from by
      simp [getTopTypes, sortDesc, hE]]
  have hA : (analyzePage pd).allScores = calculateTypeScores pd := rfl
  have ha_val : a = (a.1, g a.1) := hval a (by simp)
  have hb_val : b = (b.1, g b.1) := hval b (by simp)
  have hc_val : c = (c.1, g c.1) := hval c (by simp)
  rw [List.sorted_cons] at hsorted
  obtain ⟨ha_rel, hsorted⟩ := hsorted
  rw [List.sorted_cons] at hsorted
  obtain ⟨hb_rel, hsorted⟩ := hsorted
  rw [List.sorted_cons] at hsorted
  obtain ⟨hc_rel, _⟩ := hsorted
  have hmem_sorted : ∀ t : PageType, (t, g t) ∈ a :: b :: c :: tl := by
    intro t
    rw [← hE]
    refine hperm.mem_iff.mpr ?_
    rw [hs]
    exact List.mem_map.mpr ⟨t, mem_pageTypes t, rfl⟩
  have hmax : ∀ t : PageType, g t ≤ a.2 := by
    intro t
    rcases List.mem_cons.mp (hmem_sorted t) with h | h
    · rw [← h]
    · have := ha_rel _ h
      exact this
  have ha2 : a.2 = g a.1 := by rw [ha_val]
  have hb2 : b.2 = g b.1 := by rw [hb_val]
  have hc2 : c.2 = g c.1 := by rw [hc_val]
  simp only [List.nodup_cons, List.mem_cons] at hnodup
  refine ⟨by rw [hconf, hA, hprim], ?_, b.1, c.1, hsec, ?_, ?_, ?_, ?_, ?_, ?_⟩
  · intro t
    rw [hA, hconf, hscore, hscore]
    have h2 := hmax t
    rw [ha2] at h2
    exact h2
  · rw [hprim]
    intro h
    exact hnodup.1 (Or.inl (by rw [ha_val, hb_val, h]))
  · rw [hprim]
    intro h
    exact hnodup.1 (Or.inr (Or.inl (by rw [ha_val, hc_val, h])))
  · intro h
    exact hnodup.2.1 (Or.inl (by rw [hb_val, hc_val, h]))
  · rw [hA, hconf, hscore, hscore]
    have h2 : b.2 ≤ a.2 := ha_rel b (by simp)
    rw [hb2, ha2] at h2
    exact h2
  · rw [hA, hscore, hscore]
    have h2 : c.2 ≤ b.2 := hb_rel c (by simp)
    rw [hc2, hb2] at h2
    exact h2
  · intro t hta htb htc
    rw [hA, hscore, hscore]
    rw [hprim] at hta
    have hmem := hmem_sorted t
    rcases List.mem_cons.mp hmem with h | h
    · exact absurd (congrArg Prod.fst h) hta
    rcases List.mem_cons.mp h with h | h
    · exact absurd (congrArg Prod.fst h) htb
    rcases List.mem_cons.mp h with h | h
    · exact absurd (congrArg Prod.fst h) htc
    · have h2 : (t, g t).2 ≤ c.2 := hc_rel _ h
      rw [hc2] at h2
      exact h2

/-- Witness for C8 at the degenerate document, reading off the maximality
conjunct at the Course type. -/
theorem claim_C8_witness :
    scoreOf (analyzePage emptyPageData).allScores PageType.Course
      ≤ (analyzePage emptyPageData).confidence :=
  (claim_C8 emptyPageData).2.1 PageType.Course
